import Mathlib

/-!
Verification of the movie-catalog application (storage backends and the
command layer) against its specification.

The catalog is a Python dict mapping title to a record with keys
year (int), rating (float) and optionally poster (str).  We model it as an
insertion-ordered association list; dict assignment, deletion and membership
are modelled by first-occurrence operations, which agree with Python dicts
on lists with pairwise-distinct keys (the only dict-reachable states).
Python floats are modelled as rationals.
-/

/-- A movie record: year, rating, and an optional poster URL
(the poster key is absent from the dict when the field is `none`). -/
structure Movie where
  year : Int
  rating : ℚ
  poster : Option String
  deriving Repr, DecidableEq

/-- A catalog: the in-memory dict returned by list_movies, as an
insertion-ordered association list from title to record. -/
abbrev Catalog := List (String × Movie)

/-- Dict membership test: `title in movies`. -/
def hasTitle : Catalog → String → Bool
  | [], _ => false
  | (k, _) :: rest, t => k = t || hasTitle rest t

/-- Dict lookup: `movies[title]` (first occurrence). -/
def getMovie : Catalog → String → Option Movie
  | [], _ => none
  | (k, v) :: rest, t => if k = t then some v else getMovie rest t

/-- Dict assignment `movies[title] = data`: replace the record in place if the
title is present, append otherwise. -/
def dictSet : Catalog → String → Movie → Catalog
  | [], t, m => [(t, m)]
  | (k, v) :: rest, t, m =>
    if k = t then (k, m) :: rest else (k, v) :: dictSet rest t m

/-- Dict deletion `del movies[title]`. -/
def dictDelete : Catalog → String → Catalog
  | [], _ => []
  | (k, v) :: rest, t => if k = t then rest else (k, v) :: dictDelete rest t

/-- `movies[title]["rating"] = rating`: update the rating field of the
record stored under the title, leaving year and poster untouched. -/
def setRating : Catalog → String → ℚ → Catalog
  | [], _, _ => []
  | (k, v) :: rest, t, r =>
    if k = t then (k, { v with rating := r }) :: rest else (k, v) :: setRating rest t r

/-- Python truthiness filter applied by add_movie (`if poster:`): the poster
key is stored only when the argument is a non-empty string. -/
def posterTruthy : Option String → Option String
  | none => none
  | some s => if s = "" then none else some s

/-- A catalog is well formed when its titles are pairwise distinct (Python
dict keys are unique) and no present poster is the empty string. -/
def Catalog.wf (c : Catalog) : Prop :=
  (c.map Prod.fst).Nodup ∧ ∀ p ∈ c, p.2.poster ≠ some ""

instance (c : Catalog) : Decidable c.wf := by
  unfold Catalog.wf; infer_instance

/-! ### JSON backend (storage_json.py)

The backing file is modelled by its observable states: absent
(FileNotFoundError on open), present but not decodable as JSON
(json.JSONDecodeError), or a JSON object holding a catalog.  json.dump
followed by json.load is the identity on catalog-shaped objects, since
Python round-trips int and float literals exactly. -/

/-- State of the JSON backing file. -/
inductive JsonFile where
  | missing
  | malformed
  | object (movies : Catalog)
  deriving Repr, DecidableEq

/-- StorageJson.list_movies: json.load the file, returning the empty dict on
FileNotFoundError or JSONDecodeError. -/
def StorageJson.list_movies : JsonFile → Catalog
  | .missing => []
  | .malformed => []
  | .object movies => movies

/-- StorageJson._save_movies: json.dump the dict, overwriting the file. -/
def StorageJson.save_movies (movies : Catalog) : JsonFile :=
  .object movies

/-- StorageJson.add_movie: load, insert (poster key only when truthy), save. -/
def StorageJson.add_movie (f : JsonFile) (title : String) (year : Int)
    (rating : ℚ) (poster : Option String) : JsonFile :=
  let movies := StorageJson.list_movies f
  StorageJson.save_movies (dictSet movies title ⟨year, rating, posterTruthy poster⟩)

/-- StorageJson.delete_movie: load; if the title is present, delete and save;
otherwise do nothing (the file is not rewritten). -/
def StorageJson.delete_movie (f : JsonFile) (title : String) : JsonFile :=
  let movies := StorageJson.list_movies f
  if hasTitle movies title then StorageJson.save_movies (dictDelete movies title) else f

/-- StorageJson.update_movie: load; if the title is present, set its rating
field and save; otherwise do nothing. -/
def StorageJson.update_movie (f : JsonFile) (title : String) (rating : ℚ) : JsonFile :=
  let movies := StorageJson.list_movies f
  if hasTitle movies title then StorageJson.save_movies (setRating movies title rating) else f

/-! ### CSV backend (storage_csv.py)

A CSV row holds four cells of text.  The year and rating cells of a file
written by _save_movies are `str(int)` and `str(float)` images, which Python
parses back exactly (`int(str(n)) == n`, `float(str(x)) == x`); we model such
a cell as the `lit` constructor carrying the value itself, and any other cell
text (possible in externally produced files) as `raw` carrying the string,
parsed by a model of Python's int()/float().  list_movies catches only
FileNotFoundError and csv.Error, so a ValueError raised by `int(row[...])` or
`float(row[...])` on a malformed cell propagates to the caller; we model that
with an `Except` result. -/

/-- The uncaught exception that CSV loading can raise. -/
inductive PyErr where
  | valueError
  deriving Repr, DecidableEq

/-- The year cell of a CSV row: the exact printing of an integer, or other text. -/
inductive YearCell where
  | lit (n : Int)
  | raw (s : String)
  deriving Repr, DecidableEq

/-- The rating cell of a CSV row: the exact printing of a number, or other text. -/
inductive RatingCell where
  | lit (q : ℚ)
  | raw (s : String)
  deriving Repr, DecidableEq

/-- One data row of the CSV file (title, year, rating, poster cells). -/
structure CsvRow where
  title : String
  year : YearCell
  rating : RatingCell
  poster : String
  deriving Repr, DecidableEq

/-- State of the CSV backing file: absent, or a header line plus data rows. -/
inductive CsvFile where
  | missing
  | content (rows : List CsvRow)
  deriving Repr, DecidableEq

/-- Numeric value of a digit run. -/
def digitsVal (l : List Char) : Nat :=
  l.foldl (fun a c => a * 10 + (c.toNat - 48)) 0

/-- Model of Python str.strip(): drop whitespace from both ends. -/
def pyStrip (s : String) : String :=
  ((s.toList.dropWhile Char.isWhitespace).reverse.dropWhile Char.isWhitespace).reverse.asString

/-- Model of Python int(s): optional sign followed by one or more digits
(surrounding whitespace stripped); anything else raises ValueError (none). -/
def pyInt (s : String) : Option Int :=
  let cs := (pyStrip s).toList
  let signed : Int × List Char :=
    match cs with
    | '-' :: rest => (-1, rest)
    | '+' :: rest => (1, rest)
    | rest => (1, rest)
  if signed.2 ≠ [] ∧ signed.2.all Char.isDigit then
    some (signed.1 * (digitsVal signed.2 : Int))
  else none

/-- Model of Python float(s) on plain decimal notation: optional sign, then
digits with an optional fractional part (at least one digit overall);
anything else raises ValueError (none).  Exponent and infinity forms are not
modelled. -/
def pyFloat (s : String) : Option ℚ :=
  let cs := (pyStrip s).toList
  let signed : ℚ × List Char :=
    match cs with
    | '-' :: rest => (-1, rest)
    | '+' :: rest => (1, rest)
    | rest => (1, rest)
  let intPart := signed.2.takeWhile Char.isDigit
  let rest := signed.2.drop intPart.length
  match rest with
  | [] => if intPart ≠ [] then some (signed.1 * (digitsVal intPart : ℚ)) else none
  | '.' :: frac =>
    if frac.all Char.isDigit ∧ (intPart ≠ [] ∨ frac ≠ []) then
      some (signed.1 * ((digitsVal intPart : ℚ) + (digitsVal frac : ℚ) / 10 ^ frac.length))
    else none
  | _ => none

/-- Parse the year cell as `int(row["year"])` does. -/
def parseYearCell : YearCell → Option Int
  | .lit n => some n
  | .raw s => pyInt s

/-- Parse the rating cell as `float(row["rating"])` does. -/
def parseRatingCell : RatingCell → Option ℚ
  | .lit q => some q
  | .raw s => pyFloat s

/-- The reading loop of StorageCsv.list_movies: for each row, parse year and
rating (an unparsable cell raises ValueError), attach the poster only when
the cell is non-empty, and assign into the dict. -/
def csvReadRows : List CsvRow → Catalog → Except PyErr Catalog
  | [], movies => .ok movies
  | row :: rest, movies =>
    match parseYearCell row.year with
    | none => .error .valueError
    | some y =>
      match parseRatingCell row.rating with
      | none => .error .valueError
      | some r =>
        let md : Movie :=
          ⟨y, r, if row.poster = "" then none else some row.poster⟩
        csvReadRows rest (dictSet movies row.title md)

/-- StorageCsv.list_movies: a missing file yields the empty dict
(FileNotFoundError is caught); otherwise read all rows, propagating any
ValueError from numeric parsing. -/
def StorageCsv.list_movies : CsvFile → Except PyErr Catalog
  | .missing => .ok []
  | .content rows => csvReadRows rows []

/-- StorageCsv._save_movies: write header and one row per entry, with the
poster cell defaulted to the empty string when the field is absent. -/
def StorageCsv.save_movies (movies : Catalog) : CsvFile :=
  .content (movies.map fun p => ⟨p.1, .lit p.2.year, .lit p.2.rating, p.2.poster.getD ""⟩)

/-- StorageCsv.add_movie: load, insert (poster key only when truthy), save. -/
def StorageCsv.add_movie (f : CsvFile) (title : String) (year : Int)
    (rating : ℚ) (poster : Option String) : Except PyErr CsvFile := do
  let movies ← StorageCsv.list_movies f
  pure (StorageCsv.save_movies (dictSet movies title ⟨year, rating, posterTruthy poster⟩))

/-- StorageCsv.delete_movie: load; if the title is present, delete and save;
otherwise do nothing (the file is not rewritten). -/
def StorageCsv.delete_movie (f : CsvFile) (title : String) : Except PyErr CsvFile := do
  let movies ← StorageCsv.list_movies f
  if hasTitle movies title then
    pure (StorageCsv.save_movies (dictDelete movies title))
  else
    pure f

/-- StorageCsv.update_movie: load; if the title is present, set its rating
field and save; otherwise do nothing. -/
def StorageCsv.update_movie (f : CsvFile) (title : String) (rating : ℚ) :
    Except PyErr CsvFile := do
  let movies ← StorageCsv.list_movies f
  if hasTitle movies title then
    pure (StorageCsv.save_movies (setRating movies title rating))
  else
    pure f

/-! ### Command layer (movie_app.py)

Each command first lists the catalog, validates its inputs, and performs at
most one storage mutation.  We model a command as a pure function from the
listed catalog and the console/API inputs to an outcome (each early-return
error message is one constructor), and per-backend runners that perform the
storage call exactly in the outcome that reaches it in the source. -/

/-- The fields of an OMDb API response used by the add command; each is the
corresponding key of the JSON body when present. -/
structure ApiMovie where
  title : Option String
  yearStr : Option String
  imdbRating : Option String
  posterUrl : Option String
  deriving Repr, DecidableEq

/-- The year-extraction loop of _command_add_movie: scan the string from the
left, and while the current character is a digit, set the accumulator to the
integer value of the prefix read so far; stop at the first non-digit. -/
def yearLoop : List Char → Nat → Nat
  | [], year => year
  | ch :: rest, year =>
    if ch.isDigit then yearLoop rest (year * 10 + (ch.toNat - 48)) else year

/-- Year extraction of _command_add_movie: run the digit-prefix loop starting
from 0, then replace a result of 0 by the fallback year 2000. -/
def extractYear (s : String) : Int :=
  let year := yearLoop s.toList 0
  if year = 0 then 2000 else (year : Int)

/-- Rating extraction of _command_add_movie: the imdbRating field defaults to
the sentinel; the sentinel or an unparsable value yields 0.0, otherwise the
float value is taken as is (no range check). -/
def extractRating (imdb : Option String) : ℚ :=
  let v := imdb.getD "N/A"
  if v = "N/A" then 0 else (pyFloat v).getD 0

/-- Poster extraction of _command_add_movie: absent when the key is missing
or holds the sentinel. -/
def extractPoster : Option String → Option String
  | none => none
  | some s => if s = "N/A" then none else some s

/-- Outcome of the add command: each early return, or the add_movie call
performed with the extracted arguments. -/
inductive AddOutcome where
  | emptyTitle
  | alreadyExists
  | notFound
  | added (title : String) (year : Int) (rating : ℚ) (poster : Option String)
  deriving Repr, DecidableEq

/-- _command_add_movie on the listed catalog: strip the input title, reject
an empty or already-present title, report a not-found API response, and
otherwise extract title/year/rating/poster from the response.  The API
response is `none` when the service answered not-found. -/
def addCommand (movies : Catalog) (rawTitle : String) (api : Option ApiMovie) :
    AddOutcome :=
  let title := pyStrip rawTitle
  if title = "" then .emptyTitle
  else if hasTitle movies title then .alreadyExists
  else
    match api with
    | none => .notFound
    | some data =>
      let apiTitle := data.title.getD title
      let year := extractYear (data.yearStr.getD "0")
      let rating := extractRating data.imdbRating
      let poster := extractPoster data.posterUrl
      .added apiTitle year rating poster

/-- _command_add_movie against the JSON backend: list, decide, and call
add_movie exactly when the outcome is an add. -/
def runAddJson (f : JsonFile) (rawTitle : String) (api : Option ApiMovie) :
    JsonFile × AddOutcome :=
  let movies := StorageJson.list_movies f
  match addCommand movies rawTitle api with
  | .added t y r p => (StorageJson.add_movie f t y r p, .added t y r p)
  | o => (f, o)

/-- _command_add_movie against the CSV backend (listing may raise). -/
def runAddCsv (f : CsvFile) (rawTitle : String) (api : Option ApiMovie) :
    Except PyErr (CsvFile × AddOutcome) := do
  let movies ← StorageCsv.list_movies f
  match addCommand movies rawTitle api with
  | .added t y r p => do
    let f2 ← StorageCsv.add_movie f t y r p
    pure (f2, AddOutcome.added t y r p)
  | o => pure (f, o)

/-- Outcome of the delete command. -/
inductive DeleteOutcome where
  | emptyTitle
  | notExist
  | deleted
  deriving Repr, DecidableEq

/-- _command_delete_movie on the listed catalog: strip the title, reject an
empty title, report a missing title, otherwise delete. -/
def deleteCommand (movies : Catalog) (rawTitle : String) : DeleteOutcome :=
  let title := pyStrip rawTitle
  if title = "" then .emptyTitle
  else if hasTitle movies title = false then .notExist
  else .deleted

/-- _command_delete_movie against the JSON backend. -/
def runDeleteJson (f : JsonFile) (rawTitle : String) : JsonFile × DeleteOutcome :=
  let movies := StorageJson.list_movies f
  match deleteCommand movies rawTitle with
  | .deleted => (StorageJson.delete_movie f (pyStrip rawTitle), .deleted)
  | o => (f, o)

/-- _command_delete_movie against the CSV backend. -/
def runDeleteCsv (f : CsvFile) (rawTitle : String) :
    Except PyErr (CsvFile × DeleteOutcome) := do
  let movies ← StorageCsv.list_movies f
  match deleteCommand movies rawTitle with
  | .deleted => do
    let f2 ← StorageCsv.delete_movie f (pyStrip rawTitle)
    pure (f2, DeleteOutcome.deleted)
  | o => pure (f, o)

/-- Outcome of the update command: each early return has its own message in
the source, so non-numeric input and out-of-range input are distinct
constructors. -/
inductive UpdateOutcome where
  | emptyTitle
  | notExist
  | invalidInput
  | outOfRange
  | updated (title : String) (rating : ℚ)
  deriving Repr, DecidableEq

/-- _command_update_movie on the listed catalog: strip the title, reject an
empty or missing title; `float(input)` failure is the invalid-input message,
a value outside [0,10] the out-of-range message; otherwise update. -/
def updateCommand (movies : Catalog) (rawTitle ratingInput : String) :
    UpdateOutcome :=
  let title := pyStrip rawTitle
  if title = "" then .emptyTitle
  else if hasTitle movies title = false then .notExist
  else
    match pyFloat ratingInput with
    | none => .invalidInput
    | some r => if 0 ≤ r ∧ r ≤ 10 then .updated title r else .outOfRange

/-- _command_update_movie against the JSON backend. -/
def runUpdateJson (f : JsonFile) (rawTitle ratingInput : String) :
    JsonFile × UpdateOutcome :=
  let movies := StorageJson.list_movies f
  match updateCommand movies rawTitle ratingInput with
  | .updated t r => (StorageJson.update_movie f t r, .updated t r)
  | o => (f, o)

/-- _command_update_movie against the CSV backend. -/
def runUpdateCsv (f : CsvFile) (rawTitle ratingInput : String) :
    Except PyErr (CsvFile × UpdateOutcome) := do
  let movies ← StorageCsv.list_movies f
  match updateCommand movies rawTitle ratingInput with
  | .updated t r => do
    let f2 ← StorageCsv.update_movie f t r
    pure (f2, UpdateOutcome.updated t r)
  | o => pure (f, o)

/-! ### Stats command (movie_app.py _command_movie_stats) -/

/-- Stable insertion into an ascending list, as produced by Python sorted. -/
def insertSorted (x : ℚ) : List ℚ → List ℚ
  | [] => [x]
  | y :: ys => if x ≤ y then x :: y :: ys else y :: insertSorted x ys

/-- Ascending sort of the ratings, as Python sorted(ratings). -/
def sortRatings (l : List ℚ) : List ℚ :=
  l.foldr insertSorted []

/-- Python max(items, key=rating): keep the current best, replacing it only
when a later item is strictly greater, so ties keep the earlier item. -/
def maxByRating : Catalog → (String × Movie) → (String × Movie)
  | [], best => best
  | p :: rest, best =>
    maxByRating rest (if best.2.rating < p.2.rating then p else best)

/-- Python min(items, key=rating): ties keep the earlier item. -/
def minByRating : Catalog → (String × Movie) → (String × Movie)
  | [], worst => worst
  | p :: rest, worst =>
    minByRating rest (if p.2.rating < worst.2.rating then p else worst)

/-- The figures printed by the stats command. -/
structure Stats where
  average : ℚ
  median : ℚ
  best : String × Movie
  worst : String × Movie
  deriving Repr, DecidableEq

/-- _command_movie_stats on the listed catalog: none on an empty catalog;
otherwise the mean, the median (average of the two central sorted ratings
when the count is even), and the first maximal and minimal entries. -/
def movieStats : Catalog → Option Stats
  | [] => none
  | p :: rest =>
    let movies := p :: rest
    let ratings := movies.map fun q => q.2.rating
    let average := ratings.sum / ratings.length
    let sorted := sortRatings ratings
    let mid := sorted.length / 2
    let median :=
      if sorted.length % 2 = 0 then (sorted.getD (mid - 1) 0 + sorted.getD mid 0) / 2
      else sorted.getD mid 0
    some ⟨average, median, maxByRating rest p, minByRating rest p⟩

/-- Decidable equality for storage results, so that concrete runs of the CSV
backend can be checked by evaluation. -/
instance {ε α : Type} [DecidableEq ε] [DecidableEq α] : DecidableEq (Except ε α)
  | .ok a, .ok b =>
    match decEq a b with
    | isTrue h => isTrue (by rw [h])
    | isFalse h => isFalse (by intro hh; cases hh; exact h rfl)
  | .error a, .error b =>
    match decEq a b with
    | isTrue h => isTrue (by rw [h])
    | isFalse h => isFalse (by intro hh; cases hh; exact h rfl)
  | .ok _, .error _ => isFalse (by intro hh; cases hh)
  | .error _, .ok _ => isFalse (by intro hh; cases hh)

/-- Formalisation of the specification wording for year extraction: take the
first four characters as the year when they are all digits, otherwise fall
back to the fixed year.  (Stated from the spec, to be compared with
extractYear, which is translated from the source.) -/
def specFourDigitYear (s : String) : Int :=
  let four := s.toList.take 4
  if four.length = 4 ∧ four.all Char.isDigit then (digitsVal four : Int) else 2000

/-! ### Helper lemmas about the dict operations -/

theorem hasTitle_iff_mem (c : Catalog) (t : String) :
    hasTitle c t = true ↔ t ∈ c.map Prod.fst := by
  induction c with
  | nil => simp [hasTitle]
  | cons p rest ih =>
    obtain ⟨k, v⟩ := p
    simp only [hasTitle, Bool.or_eq_true, decide_eq_true_eq, ih, List.map_cons,
      List.mem_cons]
    constructor
    · rintro (h | h)
      · left; exact h.symm
      · right; exact h
    · rintro (h | h)
      · left; exact h.symm
      · right; exact h

theorem dictSet_append_of_not_mem (c : Catalog) (t : String) (m : Movie)
    (h : hasTitle c t = false) : dictSet c t m = c ++ [(t, m)] := by
  induction c with
  | nil => rfl
  | cons p rest ih =>
    obtain ⟨k, v⟩ := p
    simp only [hasTitle, Bool.or_eq_false_iff, decide_eq_false_iff_not] at h
    simp [dictSet, h.1, ih h.2]

theorem map_fst_dictSet (c : Catalog) (t : String) (m : Movie) :
    (dictSet c t m).map Prod.fst =
      if hasTitle c t then c.map Prod.fst else c.map Prod.fst ++ [t] := by
  induction c with
  | nil => simp [dictSet, hasTitle]
  | cons p rest ih =>
    obtain ⟨k, v⟩ := p
    by_cases hk : k = t
    · subst hk; simp [dictSet, hasTitle]
    · simp only [dictSet, hasTitle, if_neg hk, List.map_cons, ih]
      by_cases hr : hasTitle rest t = true <;> simp [hr, hk]

theorem mem_dictSet (c : Catalog) (t : String) (m : Movie) (p : String × Movie)
    (h : p ∈ dictSet c t m) : p ∈ c ∨ p = (t, m) := by
  induction c with
  | nil =>
    simp [dictSet] at h
    simp [h]
  | cons q rest ih =>
    obtain ⟨k, v⟩ := q
    by_cases hk : k = t
    · subst hk
      simp only [dictSet, if_pos rfl] at h
      rcases List.mem_cons.mp h with h1 | h1
      · right; exact h1
      · left; exact List.mem_cons_of_mem _ h1
    · simp only [dictSet, if_neg hk] at h
      rcases List.mem_cons.mp h with h1 | h1
      · left; rw [h1]; exact List.mem_cons_self _ _
      · rcases ih h1 with h2 | h2
        · left; exact List.mem_cons_of_mem _ h2
        · right; exact h2

theorem getMovie_dictSet (c : Catalog) (t : String) (m : Movie) :
    getMovie (dictSet c t m) t = some m := by
  induction c with
  | nil => simp [dictSet, getMovie]
  | cons q rest ih =>
    obtain ⟨k, v⟩ := q
    by_cases hk : k = t
    · simp [dictSet, hk, getMovie]
    · simp [dictSet, hk, getMovie, ih]

theorem map_fst_setRating (c : Catalog) (t : String) (r : ℚ) :
    (setRating c t r).map Prod.fst = c.map Prod.fst := by
  induction c with
  | nil => rfl
  | cons q rest ih =>
    obtain ⟨k, v⟩ := q
    by_cases hk : k = t <;> simp [setRating, hk, ih]

theorem mem_setRating_poster (c : Catalog) (t : String) (r : ℚ) (p : String × Movie)
    (h : p ∈ setRating c t r) : ∃ q ∈ c, p.2.poster = q.2.poster := by
  induction c with
  | nil => simp [setRating] at h
  | cons q rest ih =>
    obtain ⟨k, v⟩ := q
    by_cases hk : k = t
    · simp only [setRating, if_pos hk] at h
      rcases List.mem_cons.mp h with h1 | h1
      · exact ⟨(k, v), List.mem_cons_self _ _, by rw [h1]⟩
      · exact ⟨p, List.mem_cons_of_mem _ h1, rfl⟩
    · simp only [setRating, if_neg hk] at h
      rcases List.mem_cons.mp h with h1 | h1
      · exact ⟨(k, v), List.mem_cons_self _ _, by rw [h1]⟩
      · obtain ⟨q2, hq2, hpq⟩ := ih h1
        exact ⟨q2, List.mem_cons_of_mem _ hq2, hpq⟩

theorem mem_setRating_of_ne (c : Catalog) (t : String) (r : ℚ) (p : String × Movie)
    (h : p ∈ setRating c t r) (hne : p.1 ≠ t) : p ∈ c := by
  induction c with
  | nil => simp [setRating] at h
  | cons q rest ih =>
    obtain ⟨k, v⟩ := q
    by_cases hk : k = t
    · simp only [setRating, if_pos hk] at h
      rcases List.mem_cons.mp h with h1 | h1
      · exact absurd (by rw [h1, hk]) hne
      · exact List.mem_cons_of_mem _ h1
    · simp only [setRating, if_neg hk] at h
      rcases List.mem_cons.mp h with h1 | h1
      · rw [h1]; exact List.mem_cons_self _ _
      · exact List.mem_cons_of_mem _ (ih h1)

theorem mem_setRating_of_mem (c : Catalog) (t : String) (r : ℚ) (p : String × Movie)
    (h : p ∈ c) (hne : p.1 ≠ t) : p ∈ setRating c t r := by
  induction c with
  | nil => simp at h
  | cons q rest ih =>
    obtain ⟨k, v⟩ := q
    rcases List.mem_cons.mp h with h1 | h1
    · have hk : k ≠ t := by rw [h1] at hne; exact hne
      simp only [setRating, if_neg hk]
      rw [h1]; exact List.mem_cons_self _ _
    · by_cases hk : k = t
      · simp only [setRating, if_pos hk]
        exact List.mem_cons_of_mem _ h1
      · simp only [setRating, if_neg hk]
        exact List.mem_cons_of_mem _ (ih h1)

theorem getMovie_setRating (c : Catalog) (t : String) (r : ℚ) :
    getMovie (setRating c t r) t =
      (getMovie c t).map fun m => ⟨m.year, r, m.poster⟩ := by
  induction c with
  | nil => rfl
  | cons q rest ih =>
    obtain ⟨k, v⟩ := q
    by_cases hk : k = t <;> simp [setRating, getMovie, hk, ih]

theorem wf_setRating (c : Catalog) (t : String) (r : ℚ) (h : c.wf) :
    (setRating c t r).wf := by
  refine ⟨?_, ?_⟩
  · rw [map_fst_setRating]; exact h.1
  · intro p hp
    obtain ⟨q, hq, hpq⟩ := mem_setRating_poster c t r p hp
    rw [hpq]; exact h.2 q hq

theorem wf_dictSet (c : Catalog) (t : String) (m : Movie) (hc : c.wf)
    (hm : m.poster ≠ some "") : (dictSet c t m).wf := by
  refine ⟨?_, ?_⟩
  · rw [map_fst_dictSet]
    by_cases h : hasTitle c t = true
    · simp [h, hc.1]
    · have hnm : t ∉ c.map Prod.fst := fun hmem =>
        h ((hasTitle_iff_mem c t).mpr hmem)
      simp only [h, Bool.false_eq_true, if_false]
      rw [List.nodup_append]
      exact ⟨hc.1, List.nodup_singleton t, by
        intro a ha hb
        rw [List.mem_singleton] at hb
        rw [hb] at ha
        exact hnm ha⟩
  · intro p hp
    rcases mem_dictSet c t m p hp with h | h
    · exact hc.2 p h
    · rw [h]; exact hm

/-! ### Helper lemmas about the CSV reading loop -/

theorem csvReadRows_save (c : Catalog) : ∀ acc : Catalog,
    ((acc ++ c).map Prod.fst).Nodup →
    (∀ p ∈ c, p.2.poster ≠ some "") →
    csvReadRows
      (c.map fun p => ⟨p.1, .lit p.2.year, .lit p.2.rating, p.2.poster.getD ""⟩) acc
      = .ok (acc ++ c) := by
  induction c with
  | nil => intro acc _ _; simp [csvReadRows]
  | cons p rest ih =>
    intro acc hnd hpost
    obtain ⟨t, m⟩ := p
    have hm : (if (m.poster.getD "") = "" then none else some (m.poster.getD ""))
        = m.poster := by
      cases hmp : m.poster with
      | none => simp
      | some s =>
        have hs : s ≠ "" := by
          have h2 := hpost (t, m) (List.mem_cons_self _ _)
          rw [hmp] at h2
          intro hcon
          exact h2 (by rw [hcon])
        simp [hs]
    have hdisj : t ∉ acc.map Prod.fst := by
      rw [List.map_append] at hnd
      have hd := List.disjoint_of_nodup_append hnd
      intro hmem
      exact hd hmem (by simp)
    have ht : hasTitle acc t = false := by
      by_cases hb : hasTitle acc t = true
      · exact absurd ((hasTitle_iff_mem acc t).mp hb) hdisj
      · exact Bool.eq_false_iff.mpr hb
    simp only [List.map_cons, csvReadRows, parseYearCell, parseRatingCell]
    rw [hm]
    rw [show (⟨m.year, m.rating, m.poster⟩ : Movie) = m from rfl]
    rw [dictSet_append_of_not_mem acc t m ht]
    have hres := ih (acc ++ [(t, m)])
      (by rw [List.append_assoc]; simpa using hnd)
      (fun q hq => hpost q (List.mem_cons_of_mem _ hq))
    rw [hres]
    rw [List.append_assoc]
    simp

theorem csv_roundtrip (c : Catalog) (h : c.wf) :
    StorageCsv.list_movies (StorageCsv.save_movies c) = .ok c := by
  have hr := csvReadRows_save c [] (by simpa using h.1) h.2
  simpa [StorageCsv.list_movies, StorageCsv.save_movies] using hr

theorem csvReadRows_wf : ∀ (rows : List CsvRow) (acc c : Catalog),
    acc.wf → csvReadRows rows acc = .ok c → c.wf := by
  intro rows
  induction rows with
  | nil =>
    intro acc c hacc h
    simp only [csvReadRows, Except.ok.injEq] at h
    rwa [← h]
  | cons row rest ih =>
    intro acc c hacc h
    cases hy : parseYearCell row.year with
    | none =>
      simp only [csvReadRows, hy] at h
      exact Except.noConfusion h
    | some y =>
      cases hr : parseRatingCell row.rating with
      | none =>
        simp only [csvReadRows, hy, hr] at h
        exact Except.noConfusion h
      | some r =>
        simp only [csvReadRows, hy, hr] at h
        refine ih _ c (wf_dictSet _ _ _ hacc ?_) h
        by_cases hp : row.poster = "" <;> simp [hp]

theorem csvList_wf (f : CsvFile) (c : Catalog)
    (h : StorageCsv.list_movies f = .ok c) : c.wf := by
  cases f with
  | missing =>
    simp only [StorageCsv.list_movies, Except.ok.injEq] at h
    rw [← h]
    exact ⟨List.nodup_nil, by simp⟩
  | content rows =>
    exact csvReadRows_wf rows [] c ⟨List.nodup_nil, by simp⟩ h

theorem csvReadRows_error : ∀ (rows : List CsvRow) (acc : Catalog),
    (∃ row ∈ rows, parseYearCell row.year = none ∨ parseRatingCell row.rating = none) →
    csvReadRows rows acc = .error .valueError := by
  intro rows
  induction rows with
  | nil => intro acc h; simp at h
  | cons row rest ih =>
    intro acc h
    rcases h with ⟨r0, hr0, hbad⟩
    rcases List.mem_cons.mp hr0 with rfl | hmem
    · rcases hbad with hy | hr
      · simp only [csvReadRows, hy]
      · cases hy2 : parseYearCell r0.year with
        | none => simp only [csvReadRows, hy2]
        | some y => simp only [csvReadRows, hy2, hr]
    · cases hy2 : parseYearCell row.year with
      | none => simp only [csvReadRows, hy2]
      | some y =>
        cases hr2 : parseRatingCell row.rating with
        | none => simp only [csvReadRows, hy2, hr2]
        | some r =>
          simp only [csvReadRows, hy2, hr2]
          exact ih _ ⟨r0, hmem, hbad⟩

/-! ### Helper lemmas about the stats folds and the year loop -/

theorem maxByRating_mem : ∀ (c : Catalog) (b : String × Movie),
    maxByRating c b = b ∨ maxByRating c b ∈ c := by
  intro c
  induction c with
  | nil => intro b; left; rfl
  | cons q rest ih =>
    intro b
    rw [maxByRating]
    by_cases h : b.2.rating < q.2.rating
    · rw [if_pos h]
      rcases ih q with h1 | h1
      · right; rw [h1]; exact List.mem_cons_self _ _
      · right; exact List.mem_cons_of_mem _ h1
    · rw [if_neg h]
      rcases ih b with h1 | h1
      · left; exact h1
      · right; exact List.mem_cons_of_mem _ h1

theorem maxByRating_bound : ∀ (c : Catalog) (b : String × Movie),
    b.2.rating ≤ (maxByRating c b).2.rating ∧
    ∀ p ∈ c, p.2.rating ≤ (maxByRating c b).2.rating := by
  intro c
  induction c with
  | nil => intro b; exact ⟨le_refl _, by simp⟩
  | cons q rest ih =>
    intro b
    rw [maxByRating]
    by_cases h : b.2.rating < q.2.rating
    · rw [if_pos h]
      obtain ⟨h1, h2⟩ := ih q
      refine ⟨le_trans (le_of_lt h) h1, ?_⟩
      intro p hp
      rcases List.mem_cons.mp hp with rfl | hp2
      · exact h1
      · exact h2 p hp2
    · rw [if_neg h]
      obtain ⟨h1, h2⟩ := ih b
      refine ⟨h1, ?_⟩
      intro p hp
      rcases List.mem_cons.mp hp with rfl | hp2
      · exact le_trans (le_of_not_lt h) h1
      · exact h2 p hp2

theorem minByRating_mem : ∀ (c : Catalog) (b : String × Movie),
    minByRating c b = b ∨ minByRating c b ∈ c := by
  intro c
  induction c with
  | nil => intro b; left; rfl
  | cons q rest ih =>
    intro b
    rw [minByRating]
    by_cases h : q.2.rating < b.2.rating
    · rw [if_pos h]
      rcases ih q with h1 | h1
      · right; rw [h1]; exact List.mem_cons_self _ _
      · right; exact List.mem_cons_of_mem _ h1
    · rw [if_neg h]
      rcases ih b with h1 | h1
      · left; exact h1
      · right; exact List.mem_cons_of_mem _ h1

theorem minByRating_bound : ∀ (c : Catalog) (b : String × Movie),
    (minByRating c b).2.rating ≤ b.2.rating ∧
    ∀ p ∈ c, (minByRating c b).2.rating ≤ p.2.rating := by
  intro c
  induction c with
  | nil => intro b; exact ⟨le_refl _, by simp⟩
  | cons q rest ih =>
    intro b
    rw [minByRating]
    by_cases h : q.2.rating < b.2.rating
    · rw [if_pos h]
      obtain ⟨h1, h2⟩ := ih q
      refine ⟨le_trans h1 (le_of_lt h), ?_⟩
      intro p hp
      rcases List.mem_cons.mp hp with rfl | hp2
      · exact h1
      · exact h2 p hp2
    · rw [if_neg h]
      obtain ⟨h1, h2⟩ := ih b
      refine ⟨h1, ?_⟩
      intro p hp
      rcases List.mem_cons.mp hp with rfl | hp2
      · exact le_trans h1 (le_of_not_lt h)
      · exact h2 p hp2

theorem yearLoop_eq : ∀ (l : List Char) (a : Nat),
    yearLoop l a =
      (l.takeWhile Char.isDigit).foldl (fun x c => x * 10 + (c.toNat - 48)) a := by
  intro l
  induction l with
  | nil => intro a; rfl
  | cons ch rest ih =>
    intro a
    by_cases h : ch.isDigit = true
    · rw [yearLoop, if_pos h, List.takeWhile_cons, if_pos h, List.foldl_cons, ih]
    · rw [yearLoop, if_neg h, List.takeWhile_cons, if_neg h, List.foldl_nil]

theorem except_bind_ok {ε α β : Type} (a : α) (k : α → Except ε β) :
    (Except.ok a >>= k : Except ε β) = k a := rfl

theorem except_pure_ok {ε α : Type} (a : α) :
    (pure a : Except ε α) = Except.ok a := rfl

/-! ### Claims -/

/-- C1 (amended): saving a catalog and loading it back reproduces the same
records: unconditionally for the JSON backend, and for the CSV backend for
every well-formed catalog (pairwise-distinct titles and no present poster
equal to the empty string). -/
theorem C1_round_trip (c : Catalog) :
    StorageJson.list_movies (StorageJson.save_movies c) = c ∧
    (c.wf → StorageCsv.list_movies (StorageCsv.save_movies c) = .ok c) :=
  ⟨rfl, fun h => csv_roundtrip c h⟩

set_option maxRecDepth 8000 in
/-- C1 witness: the round trip at a concrete two-movie catalog, one record
with a poster and one without. -/
theorem C1_round_trip_witness :
    Catalog.wf [("A", ⟨2001, 17/2, some "u"⟩), ("B", ⟨1999, 3, none⟩)] ∧
    StorageJson.list_movies (StorageJson.save_movies
      [("A", ⟨2001, 17/2, some "u"⟩), ("B", ⟨1999, 3, none⟩)])
      = [("A", ⟨2001, 17/2, some "u"⟩), ("B", ⟨1999, 3, none⟩)] ∧
    StorageCsv.list_movies (StorageCsv.save_movies
      [("A", ⟨2001, 17/2, some "u"⟩), ("B", ⟨1999, 3, none⟩)])
      = .ok [("A", ⟨2001, 17/2, some "u"⟩), ("B", ⟨1999, 3, none⟩)] := by
  have hwf : Catalog.wf [("A", ⟨2001, 17/2, some "u"⟩), ("B", ⟨1999, 3, none⟩)] := by
    with_unfolding_all decide
  exact ⟨hwf, (C1_round_trip _).1, (C1_round_trip _).2 hwf⟩

set_option maxRecDepth 8000 in
/-- C1 counterexample: the CSV backend does not round-trip a record whose
poster is present but equal to the empty string; the poster comes back
absent, so the set of (title, year, rating, poster) tuples changes. -/
theorem C1_csv_empty_poster_counterexample :
    StorageCsv.list_movies (StorageCsv.save_movies [("A", ⟨2000, 5, some ""⟩)])
      = .ok [("A", ⟨2000, 5, none⟩)] ∧
    StorageCsv.list_movies (StorageCsv.save_movies [("A", ⟨2000, 5, some ""⟩)])
      ≠ .ok [("A", ⟨2000, 5, some ""⟩)] := by
  with_unfolding_all decide

set_option maxRecDepth 8000 in
/-- C2 counterexample: a CSV file with a row whose year cell is not numeric
makes list_movies raise an uncaught ValueError instead of returning the
empty catalog. -/
theorem C2_csv_malformed_counterexample :
    StorageCsv.list_movies (CsvFile.content [⟨"A", .raw "abc", .lit 5, ""⟩])
      = .error .valueError := by
  with_unfolding_all decide

/-- C2 (amended): a missing backing file yields the empty catalog for both
backends, and an undecodable JSON file yields the empty catalog; but for the
CSV backend a row whose year or rating cell fails numeric parsing makes
list_movies raise an uncaught ValueError. -/
theorem C2_failure_semantics :
    StorageJson.list_movies JsonFile.missing = [] ∧
    StorageJson.list_movies JsonFile.malformed = [] ∧
    StorageCsv.list_movies CsvFile.missing = .ok [] ∧
    (∀ rows : List CsvRow,
      (∃ row ∈ rows, parseYearCell row.year = none ∨ parseRatingCell row.rating = none) →
      StorageCsv.list_movies (CsvFile.content rows) = .error .valueError) :=
  ⟨rfl, rfl, rfl, fun rows h => csvReadRows_error rows [] h⟩

set_option maxRecDepth 8000 in
/-- C2 witness: the amended failure semantics applied at one concrete
malformed row. -/
theorem C2_failure_semantics_witness :
    (∃ row ∈ [(⟨"B", .lit 2000, .raw "abc", ""⟩ : CsvRow)],
      parseYearCell row.year = none ∨ parseRatingCell row.rating = none) ∧
    StorageCsv.list_movies (CsvFile.content [⟨"B", .lit 2000, .raw "abc", ""⟩])
      = .error .valueError := by
  have hex : ∃ row ∈ [(⟨"B", .lit 2000, .raw "abc", ""⟩ : CsvRow)],
      parseYearCell row.year = none ∨ parseRatingCell row.rating = none := by
    with_unfolding_all decide
  exact ⟨hex, C2_failure_semantics.2.2.2 _ hex⟩

/-- C8 counterexample: on the year string "20056" the code takes the whole
five-digit leading run (20056), not a four-digit prefix (2005) as the claim
states; and on "0", which does have a leading digit, the code still falls
back to the default year. -/
theorem C8_year_counterexample :
    extractYear "20056" = 20056 ∧ specFourDigitYear "20056" = 2005 ∧
    (20056 : Int) ≠ 2005 ∧ extractYear "0" = 2000 := by
  with_unfolding_all decide

/-- C8 (amended): the add command takes as year the integer value of the
maximal leading digit run of the year string (of any length), falling back
to 2000 when that run is empty or has value 0; in particular "2005–2008"
yields 2005 and "N/A" yields 2000. -/
theorem C8_year_extraction (s : String) :
    extractYear s =
      (if digitsVal (s.toList.takeWhile Char.isDigit) = 0 then 2000
       else (digitsVal (s.toList.takeWhile Char.isDigit) : Int)) ∧
    extractYear "2005–2008" = 2005 ∧ extractYear "N/A" = 2000 := by
  refine ⟨?_, by with_unfolding_all decide, by with_unfolding_all decide⟩
  simp only [extractYear]
  rw [yearLoop_eq]
  rfl

/-- C10: for both backends, add_movie given an empty-string poster stores the
record without a poster field, so it is indistinguishable from add_movie with
an absent poster; the stored record has no poster. -/
theorem C10_empty_poster (g : JsonFile) (f : CsvFile) (t : String) (y : Int) (r : ℚ) :
    StorageJson.add_movie g t y r (some "") = StorageJson.add_movie g t y r none ∧
    StorageCsv.add_movie f t y r (some "") = StorageCsv.add_movie f t y r none ∧
    getMovie (StorageJson.list_movies (StorageJson.add_movie g t y r (some ""))) t
      = some ⟨y, r, none⟩ := by
  refine ⟨by simp [StorageJson.add_movie, posterTruthy],
    by simp [StorageCsv.add_movie, posterTruthy], ?_⟩
  simp only [StorageJson.add_movie, StorageJson.save_movies, StorageJson.list_movies,
    posterTruthy, if_pos rfl]
  exact getMovie_dictSet _ _ _

/-- C4: update_movie on a present title changes only that record's rating:
its year and poster, and all other records, are unchanged afterwards, for
both the JSON and the CSV backend. -/
theorem C4_update_frame (t : String) (r : ℚ) :
    (∀ g : JsonFile,
      hasTitle (StorageJson.list_movies g) t = true →
      StorageJson.list_movies (StorageJson.update_movie g t r)
          = setRating (StorageJson.list_movies g) t r ∧
      (∀ p ∈ StorageJson.list_movies g, p.1 ≠ t →
        p ∈ StorageJson.list_movies (StorageJson.update_movie g t r)) ∧
      (∀ p ∈ StorageJson.list_movies (StorageJson.update_movie g t r), p.1 ≠ t →
        p ∈ StorageJson.list_movies g) ∧
      (∀ m, getMovie (StorageJson.list_movies g) t = some m →
        getMovie (StorageJson.list_movies (StorageJson.update_movie g t r)) t
          = some ⟨m.year, r, m.poster⟩)) ∧
    (∀ (f : CsvFile) (c : Catalog),
      StorageCsv.list_movies f = .ok c → hasTitle c t = true →
      StorageCsv.update_movie f t r = .ok (StorageCsv.save_movies (setRating c t r)) ∧
      StorageCsv.list_movies (StorageCsv.save_movies (setRating c t r))
          = .ok (setRating c t r) ∧
      (∀ p ∈ c, p.1 ≠ t → p ∈ setRating c t r) ∧
      (∀ p ∈ setRating c t r, p.1 ≠ t → p ∈ c) ∧
      (∀ m, getMovie c t = some m →
        getMovie (setRating c t r) t = some ⟨m.year, r, m.poster⟩)) := by
  constructor
  · intro g h
    have hupd : StorageJson.list_movies (StorageJson.update_movie g t r)
        = setRating (StorageJson.list_movies g) t r := by
      simp only [StorageJson.update_movie]
      rw [if_pos h]
      rfl
    refine ⟨hupd, ?_, ?_, ?_⟩
    · intro p hp hne
      rw [hupd]
      exact mem_setRating_of_mem _ t r p hp hne
    · intro p hp hne
      rw [hupd] at hp
      exact mem_setRating_of_ne _ t r p hp hne
    · intro m hm
      rw [hupd, getMovie_setRating, hm]
      rfl
  · intro f c hf h
    refine ⟨?_, csv_roundtrip _ (wf_setRating c t r (csvList_wf f c hf)), ?_, ?_, ?_⟩
    · simp [StorageCsv.update_movie, hf, except_bind_ok, except_pure_ok, h]
    · intro p hp hne
      exact mem_setRating_of_mem _ t r p hp hne
    · intro p hp hne
      exact mem_setRating_of_ne _ t r p hp hne
    · intro m hm
      rw [getMovie_setRating, hm]
      rfl

set_option maxRecDepth 8000 in
/-- C4 witness: updating the rating of "A" at a concrete two-movie catalog
on both backends. -/
theorem C4_update_frame_witness :
    StorageJson.list_movies (StorageJson.update_movie
        (JsonFile.object [("A", ⟨2000, 5, some "u"⟩), ("B", ⟨1990, 6, none⟩)]) "A" 9)
      = setRating [("A", ⟨2000, 5, some "u"⟩), ("B", ⟨1990, 6, none⟩)] "A" 9 ∧
    StorageCsv.update_movie (StorageCsv.save_movies
        [("A", ⟨2000, 5, some "u"⟩), ("B", ⟨1990, 6, none⟩)]) "A" 9
      = .ok (StorageCsv.save_movies
          (setRating [("A", ⟨2000, 5, some "u"⟩), ("B", ⟨1990, 6, none⟩)] "A" 9)) := by
  refine ⟨((C4_update_frame "A" 9).1 _ ?_).1, ((C4_update_frame "A" 9).2 _ _ ?_ ?_).1⟩
  · with_unfolding_all decide
  · with_unfolding_all decide
  · with_unfolding_all decide

/-- C5: the add command on a title already present in the catalog prints the
already-exists message and performs no storage call, leaving the file
unchanged, for both backends and any API response. -/
theorem C5_add_duplicate (title : String) (api : Option ApiMovie)
    (hstrip : pyStrip title = title) (hne : title ≠ "") :
    (∀ g : JsonFile, hasTitle (StorageJson.list_movies g) title = true →
      runAddJson g title api = (g, .alreadyExists)) ∧
    (∀ (f : CsvFile) (c : Catalog), StorageCsv.list_movies f = .ok c →
      hasTitle c title = true →
      runAddCsv f title api = .ok (f, .alreadyExists)) := by
  have hcmd : ∀ movies : Catalog, hasTitle movies title = true →
      addCommand movies title api = .alreadyExists := by
    intro movies h
    simp [addCommand, hstrip, hne, h]
  constructor
  · intro g h
    simp [runAddJson, hcmd _ h]
  · intro f c hf h
    simp [runAddCsv, hf, except_bind_ok, except_pure_ok, hcmd _ h]

set_option maxRecDepth 8000 in
/-- C5 witness: adding the already-present title "A" at a concrete catalog
on both backends. -/
theorem C5_add_duplicate_witness :
    runAddJson (JsonFile.object [("A", ⟨2000, 5, none⟩)]) "A" none
      = (JsonFile.object [("A", ⟨2000, 5, none⟩)], .alreadyExists) ∧
    runAddCsv (StorageCsv.save_movies [("A", ⟨2000, 5, none⟩)]) "A" none
      = .ok (StorageCsv.save_movies [("A", ⟨2000, 5, none⟩)], .alreadyExists) := by
  refine ⟨(C5_add_duplicate "A" none ?_ ?_).1 _ ?_,
    (C5_add_duplicate "A" none ?_ ?_).2 _ [("A", ⟨2000, 5, none⟩)] ?_ ?_⟩ <;>
    with_unfolding_all decide

/-- C6: the delete command on an absent title reports non-existence without
an error and performs no storage mutation, and delete_movie of an absent
title is a no-op at the storage layer, for both backends. -/
theorem C6_delete_absent (title : String)
    (hstrip : pyStrip title = title) (hne : title ≠ "") :
    (∀ g : JsonFile, hasTitle (StorageJson.list_movies g) title = false →
      runDeleteJson g title = (g, .notExist) ∧
      StorageJson.delete_movie g title = g) ∧
    (∀ (f : CsvFile) (c : Catalog), StorageCsv.list_movies f = .ok c →
      hasTitle c title = false →
      runDeleteCsv f title = .ok (f, .notExist) ∧
      StorageCsv.delete_movie f title = .ok f) := by
  constructor
  · intro g h
    constructor
    · simp [runDeleteJson, deleteCommand, hstrip, hne, h]
    · simp [StorageJson.delete_movie, h]
  · intro f c hf h
    constructor
    · simp [runDeleteCsv, hf, except_bind_ok, except_pure_ok, deleteCommand, hstrip, hne, h]
    · simp [StorageCsv.delete_movie, hf, except_bind_ok, except_pure_ok, h]

set_option maxRecDepth 8000 in
/-- C6 witness: deleting the absent title "B" at a concrete catalog on both
backends. -/
theorem C6_delete_absent_witness :
    runDeleteJson (JsonFile.object [("A", ⟨2000, 5, none⟩)]) "B"
      = (JsonFile.object [("A", ⟨2000, 5, none⟩)], .notExist) ∧
    StorageCsv.delete_movie (StorageCsv.save_movies [("A", ⟨2000, 5, none⟩)]) "B"
      = .ok (StorageCsv.save_movies [("A", ⟨2000, 5, none⟩)]) := by
  refine ⟨((C6_delete_absent "B" ?_ ?_).1 _ ?_).1,
    ((C6_delete_absent "B" ?_ ?_).2 _ [("A", ⟨2000, 5, none⟩)] ?_ ?_).2⟩ <;>
    with_unfolding_all decide

set_option maxRecDepth 8000 in
/-- C7: the stats command computes the mean, the median (averaging the two
central sorted ratings when the count is even), and the highest- and
lowest-rated entries; on the catalog A:8, B:6, C:10, D:4 it yields mean 7,
median 7, best C (10) and worst D (4), and in general the best and worst
entries are members of the catalog attaining the maximal and minimal
rating. -/
theorem C7_stats :
    movieStats [("A", ⟨2000, 8, none⟩), ("B", ⟨2000, 6, none⟩),
        ("C", ⟨2000, 10, none⟩), ("D", ⟨2000, 4, none⟩)]
      = some ⟨7, 7, ("C", ⟨2000, 10, none⟩), ("D", ⟨2000, 4, none⟩)⟩ ∧
    (∀ (c : Catalog) (s : Stats), movieStats c = some s →
      (s.best ∈ c ∧ ∀ p ∈ c, p.2.rating ≤ s.best.2.rating) ∧
      (s.worst ∈ c ∧ ∀ p ∈ c, s.worst.2.rating ≤ p.2.rating)) := by
  constructor
  · with_unfolding_all decide
  · intro c s h
    cases c with
    | nil => exact absurd h (by simp [movieStats])
    | cons p rest =>
      simp only [movieStats, Option.some.injEq] at h
      subst h
      refine ⟨⟨?_, ?_⟩, ?_, ?_⟩
      · rcases maxByRating_mem rest p with h1 | h1
        · rw [h1]; exact List.mem_cons_self _ _
        · exact List.mem_cons_of_mem _ h1
      · intro q hq
        rcases List.mem_cons.mp hq with rfl | hq2
        · exact (maxByRating_bound rest q).1
        · exact (maxByRating_bound rest p).2 q hq2
      · rcases minByRating_mem rest p with h1 | h1
        · rw [h1]; exact List.mem_cons_self _ _
        · exact List.mem_cons_of_mem _ h1
      · intro q hq
        rcases List.mem_cons.mp hq with rfl | hq2
        · exact (minByRating_bound rest q).1
        · exact (minByRating_bound rest p).2 q hq2

set_option maxRecDepth 8000 in
/-- C7 witness: the general best/worst property applied at the four-movie
catalog of the claim. -/
theorem C7_stats_witness :
    (⟨7, 7, ("C", ⟨2000, 10, none⟩), ("D", ⟨2000, 4, none⟩)⟩ : Stats).best
      ∈ ([("A", ⟨2000, 8, none⟩), ("B", ⟨2000, 6, none⟩),
          ("C", ⟨2000, 10, none⟩), ("D", ⟨2000, 4, none⟩)] : Catalog) ∧
    ("A", (⟨2000, 8, none⟩ : Movie)).2.rating
      ≤ (⟨7, 7, ("C", ⟨2000, 10, none⟩), ("D", ⟨2000, 4, none⟩)⟩ : Stats).best.2.rating := by
  have h := C7_stats.2
    [("A", ⟨2000, 8, none⟩), ("B", ⟨2000, 6, none⟩),
      ("C", ⟨2000, 10, none⟩), ("D", ⟨2000, 4, none⟩)]
    ⟨7, 7, ("C", ⟨2000, 10, none⟩), ("D", ⟨2000, 4, none⟩)⟩
    (by with_unfolding_all decide)
  exact ⟨h.1.1, h.1.2 _ (by with_unfolding_all decide)⟩

/-- C9: for an existing title, the update command rejects the rating inputs
"11" and "-1" with the out-of-range message and "abc" with the distinct
invalid-input message, and in each case the catalog file is not mutated, for
both backends. -/
theorem C9_update_rejects (title : String)
    (hstrip : pyStrip title = title) (hne : title ≠ "") :
    UpdateOutcome.invalidInput ≠ UpdateOutcome.outOfRange ∧
    (∀ movies : Catalog, hasTitle movies title = true →
      updateCommand movies title "11" = .outOfRange ∧
      updateCommand movies title "-1" = .outOfRange ∧
      updateCommand movies title "abc" = .invalidInput) ∧
    (∀ g : JsonFile, hasTitle (StorageJson.list_movies g) title = true →
      runUpdateJson g title "11" = (g, .outOfRange) ∧
      runUpdateJson g title "-1" = (g, .outOfRange) ∧
      runUpdateJson g title "abc" = (g, .invalidInput)) ∧
    (∀ (f : CsvFile) (c : Catalog), StorageCsv.list_movies f = .ok c →
      hasTitle c title = true →
      runUpdateCsv f title "11" = .ok (f, .outOfRange) ∧
      runUpdateCsv f title "-1" = .ok (f, .outOfRange) ∧
      runUpdateCsv f title "abc" = .ok (f, .invalidInput)) := by
  have h11 : pyFloat "11" = some 11 := by with_unfolding_all decide
  have hm1 : pyFloat "-1" = some (-1) := by with_unfolding_all decide
  have habc : pyFloat "abc" = none := by with_unfolding_all decide
  have hr11 : ¬ ((0:ℚ) ≤ 11 ∧ (11:ℚ) ≤ 10) := by norm_num
  have hrm1 : ¬ ((0:ℚ) ≤ -1 ∧ (-1:ℚ) ≤ 10) := by norm_num
  have hcmd : ∀ movies : Catalog, hasTitle movies title = true →
      updateCommand movies title "11" = .outOfRange ∧
      updateCommand movies title "-1" = .outOfRange ∧
      updateCommand movies title "abc" = .invalidInput := by
    intro movies h
    refine ⟨?_, ?_, ?_⟩ <;>
      simp [updateCommand, hstrip, hne, h, h11, hm1, habc, hr11, hrm1] <;>
      norm_num
  refine ⟨by simp, hcmd, ?_, ?_⟩
  · intro g h
    have hc := hcmd _ h
    exact ⟨by simp [runUpdateJson, hc.1], by simp [runUpdateJson, hc.2.1],
      by simp [runUpdateJson, hc.2.2]⟩
  · intro f c hf h
    have hc := hcmd _ h
    exact ⟨by simp [runUpdateCsv, hf, except_bind_ok, except_pure_ok, hc.1],
      by simp [runUpdateCsv, hf, except_bind_ok, except_pure_ok, hc.2.1],
      by simp [runUpdateCsv, hf, except_bind_ok, except_pure_ok, hc.2.2]⟩

set_option maxRecDepth 8000 in
/-- C9 witness: rejecting "abc" and "11" for the existing title "A" at a
concrete catalog on both backends. -/
theorem C9_update_rejects_witness :
    runUpdateJson (JsonFile.object [("A", ⟨2000, 5, none⟩)]) "A" "abc"
      = (JsonFile.object [("A", ⟨2000, 5, none⟩)], .invalidInput) ∧
    runUpdateCsv (StorageCsv.save_movies [("A", ⟨2000, 5, none⟩)]) "A" "11"
      = .ok (StorageCsv.save_movies [("A", ⟨2000, 5, none⟩)], .outOfRange) := by
  refine ⟨((C9_update_rejects "A" ?_ ?_).2.2.1 _ ?_).2.2,
    ((C9_update_rejects "A" ?_ ?_).2.2.2 _ [("A", ⟨2000, 5, none⟩)] ?_ ?_).1⟩ <;>
    with_unfolding_all decide

set_option maxRecDepth 8000 in
/-- C3 counterexample: an API response carrying imdbRating "11.5" makes the
add command store rating 11.5, outside [0,10]: no clamping or rejection
happens on the add path. -/
theorem C3_rating_counterexample :
    addCommand [] "Movie" (some ⟨some "Movie", some "2005", some "11.5", none⟩)
      = .added "Movie" 2005 (23/2) none ∧
    (runAddJson (JsonFile.object []) "Movie"
        (some ⟨some "Movie", some "2005", some "11.5", none⟩)).1
      = JsonFile.object [("Movie", ⟨2005, 23/2, none⟩)] ∧
    ¬ ((23:ℚ)/2 ≤ 10) := by
  with_unfolding_all decide

/-- C3 (amended): the update path does maintain the range: any rating the
update command writes lies in [0,10]; the add path performs no range check,
parsing the API rating with only the sentinel and unparsable values
defaulted to 0, so an out-of-range API value such as "11.5" is stored
unchanged. -/
theorem C3_rating_range (movies : Catalog) (rawTitle s t : String) (r : ℚ)
    (h : updateCommand movies rawTitle s = .updated t r) :
    (0 ≤ r ∧ r ≤ 10) ∧ extractRating (some "11.5") = 23/2 ∧
    extractRating (some "N/A") = 0 ∧ extractRating none = 0 ∧
    extractRating (some "abc") = 0 := by
  refine ⟨?_, by with_unfolding_all decide, by with_unfolding_all decide,
    by with_unfolding_all decide, by with_unfolding_all decide⟩
  simp only [updateCommand] at h
  split at h
  · exact UpdateOutcome.noConfusion h
  · split at h
    · exact UpdateOutcome.noConfusion h
    · split at h
      · exact UpdateOutcome.noConfusion h
      · split at h
        · rename_i hcond
          injection h with h1 h2
          rw [← h2]
          exact hcond
        · exact UpdateOutcome.noConfusion h

set_option maxRecDepth 8000 in
/-- C3 witness: the update-path range guarantee applied at a concrete
accepted update. -/
theorem C3_rating_range_witness :
    updateCommand [("A", ⟨2000, 5, none⟩)] "A" "7" = .updated "A" 7 ∧
    ((0:ℚ) ≤ 7 ∧ (7:ℚ) ≤ 10) := by
  have hcmd : updateCommand [("A", ⟨2000, 5, none⟩)] "A" "7" = .updated "A" 7 := by
    with_unfolding_all decide
  exact ⟨hcmd, (C3_rating_range _ _ _ _ _ hcmd).1⟩
